import Mathlib

/-!
# Verification of the ChatGPT archive parser

A shallow embedding of `src/ChatGPT-archive-parser.py` together with proofs
about the properties stated in the repository specification.

Modelling conventions:
* JSON dictionaries become Lean structures; an absent key becomes `none`
  (with the Python `.get` default applied at the use site, as in the source).
* Python strings are Lean `String`s; Python truthiness of a string is
  "not equal to the empty string", of a list "not empty", of a number
  "not zero", of `None` "false".
* `datetime.fromtimestamp` is modelled as a wrapper around the epoch value
  (`PyDatetime`), with the calendar-field formatting (`strftime`) computed
  by the standard civil-from-days algorithm (time zone fixed to UTC).
* File-system side effects are modelled by returning the paths and the
  written contents as values.
-/

/-- Model of a Python `datetime` as produced by `datetime.fromtimestamp`:
the epoch second it was built from. -/
structure PyDatetime where
  epoch : Int
deriving DecidableEq

/-- `datetime.fromtimestamp`, modelled as remembering the epoch value. -/
def datetime_fromtimestamp (t : Int) : PyDatetime := ⟨t⟩

/-- The `content` block of a message payload: a `content_type` discriminator
(`none` when the key is absent) and the `parts` list (`[]` default). -/
structure Content where
  content_type : Option String
  parts : List String
deriving DecidableEq

/-- A message payload.  `authorRole` is `message.get("author", {}).get("role", "")`
with the absent-key default already applied; `content` is `none` when the
`content` key is absent or holds an empty (falsy) dict;
`is_user_system_message` is the truthiness of
`message.get("metadata", {}).get("is_user_system_message")`;
the timestamps are `none` when the key is absent. -/
structure Message where
  authorRole : String
  content : Option Content
  is_user_system_message : Bool
  create_time : Option Int
  update_time : Option Int
deriving DecidableEq

/-- A node of the message graph: an optional message payload and an optional
parent node id.  A node id that is missing from the mapping behaves as
`{}`, i.e. as `⟨none, none⟩`. -/
structure Node where
  message : Option Message
  parent : Option String
deriving DecidableEq

/-- A conversation object.  `update_time` is doubly optional: the outer layer
records whether the key is present at all, the inner layer whether its value
is a number or JSON `null` — Python's `conversation.get("update_time")`
collapses both `none`s, which is what `updatedVal` below does. -/
structure Conversation where
  id : Option String
  title : Option String
  create_time : Option Int
  update_time : Option (Option Int)
  current_node : Option String
  mapping : List (String × Node)
deriving DecidableEq

/-- A normalized message as appended by `get_conversation_messages`
(source lines 86–91). -/
structure NormMessage where
  author : String
  text : String
  create_time : PyDatetime
  update_time : PyDatetime
deriving DecidableEq

/-- Source lines 22–34: return `content["parts"]` when the content block is
truthy and its `content_type` is `"text"`, else `[]`. -/
def extract_message_parts (message : Message) : List String :=
  match message.content with
  | some content => if content.content_type = some "text" then content.parts else []
  | none => []

/-- The literal dictionary `{"assistant": "ChatGPT", "system": "Custom user info"}`
from source lines 48–51. -/
def author_name_table : List (String × String) :=
  [("assistant", "ChatGPT"), ("system", "Custom user info")]

/-- Source lines 38–51: look the raw role up in `author_name_table` with the
raw role itself as the default. -/
def get_author_name (message : Message) : String :=
  (author_name_table.lookup message.authorRole).getD message.authorRole

/-- The inclusion test of source lines 79–81, exactly as written: `parts`
truthy, `parts[0]` truthy, and (`author != "system"` or the metadata flag),
where `author` is the value already mapped by `get_author_name`. -/
def message_qualifies (message : Message) : Bool :=
  let parts := extract_message_parts message
  let author := get_author_name message
  !parts.isEmpty && (parts.headD "" != "") &&
    (author != "system" || message.is_user_system_message)

/-- The record appended at source lines 86–91 for a qualifying message. -/
def normalize_message (message : Message) : NormMessage :=
  { author := get_author_name message
    text := (extract_message_parts message).headD ""
    create_time := datetime_fromtimestamp (message.create_time.getD 0)
    update_time := datetime_fromtimestamp (message.update_time.getD 0) }

/-- `mapping.get(current_node, {})` of source line 69. -/
def nodeAt (mapping : List (String × Node)) (s : String) : Node :=
  (mapping.lookup s).getD ⟨none, none⟩

/-- The loop body of `get_conversation_messages` (source lines 68–93),
written as fuel-bounded recursion.  Each iteration looks the current id up,
records the node's message when it qualifies, and moves to the parent; the
loop stops when the current id is falsy (`None` or `""`).  The list is
accumulated leaf-to-root, exactly like the Python `messages` list before
the final reversal. -/
def walk (mapping : List (String × Node)) : Nat → Option String → List NormMessage
  | 0, _ => []
  | _ + 1, none => []
  | fuel + 1, some s =>
    if s = "" then []
    else
      let node := nodeAt mapping s
      let rest := walk mapping fuel node.parent
      match node.message with
      | none => rest
      | some message =>
        if message_qualifies message then normalize_message message :: rest else rest

/-- Source lines 55–95.  The fuel `mapping.length + 1` is sufficient whenever
the parent chain is acyclic (proved below); on a cyclic chain the Python
loop does not terminate at all (claim C9). -/
def get_conversation_messages (conversation : Conversation) : List NormMessage :=
  (walk conversation.mapping (conversation.mapping.length + 1)
    conversation.current_node).reverse

/-- Python truthiness of the optional current-node id. -/
def truthyO : Option String → Bool
  | none => false
  | some s => s != ""

/-- One iteration of the loop's pointer update: `current_node = node.get("parent")`
(source lines 73 and 93), `none` once the loop has stopped. -/
def stepO (mapping : List (String × Node)) : Option String → Option String
  | none => none
  | some s => if s = "" then none else (nodeAt mapping s).parent

/-- The loop pointer after `n` iterations. -/
def chainO (conversation : Conversation) (n : Nat) : Option String :=
  (stepO conversation.mapping)^[n] conversation.current_node

/-- The `while current_node:` loop of source line 68 terminates: some iterate
of the pointer is falsy. -/
def LoopTerminates (conversation : Conversation) : Prop :=
  ∃ n, truthyO (chainO conversation n) = false

/-- The parent chain from `current_node` is acyclic: no node id recurs among
the truthy positions of the pointer sequence. -/
def AcyclicChain (conversation : Conversation) : Prop :=
  ∀ i j, truthyO (chainO conversation i) = true →
    truthyO (chainO conversation j) = true →
    chainO conversation i = chainO conversation j → i = j

/-- The node ids visited by the walk, in visit (leaf-to-root) order,
fuel-bounded like `walk`. -/
def chainIds (mapping : List (String × Node)) : Nat → Option String → List String
  | 0, _ => []
  | _ + 1, none => []
  | fuel + 1, some s =>
    if s = "" then [] else s :: chainIds mapping fuel (nodeAt mapping s).parent

/-- The parent-link path of a conversation: the node ids visited by the walk. -/
def visited_path (conversation : Conversation) : List String :=
  chainIds conversation.mapping (conversation.mapping.length + 1)
    conversation.current_node

/-- What the walk records at one visited node id: the node's qualifying
message, normalized, if any. -/
def record_at (mapping : List (String × Node)) (s : String) : Option NormMessage :=
  match (nodeAt mapping s).message with
  | none => none
  | some message =>
    if message_qualifies message then some (normalize_message message) else none

/-- The character class of the regex at source line 109:
`[<>:"/\\|?*\x00-\x1F\s]`, with `\s` the Unicode whitespace set matched by
Python's `re` on `str`. -/
def isBadChar (c : Char) : Bool :=
  let n := c.toNat
  n ≤ 0x1F || n = 0x3C || n = 0x3E || n = 0x3A || n = 0x22 || n = 0x2F ||
    n = 0x5C || n = 0x7C || n = 0x3F || n = 0x2A ||
    n = 0x20 || n = 0x85 || n = 0xA0 || n = 0x1680 ||
    (0x2000 ≤ n && n ≤ 0x200A) || n = 0x2028 || n = 0x2029 || n = 0x202F ||
    n = 0x205F || n = 0x3000

/-- `re.sub` with the class above replaces each matched character by `'_'`. -/
def replChar (c : Char) : Char :=
  if isBadChar c then '_' else c

/-- Source lines 107–110 at the character-list level, parameterized by the
normalization function `nfkc` modelling the external library call
`unicodedata.normalize("NFKC", ·)` (the library is not part of this
repository; the claims below assume only its documented closure laws). -/
def sanitizeChars (nfkc : List Char → List Char) (title : List Char) : List Char :=
  ((nfkc title).map replChar).take 140

/-- Source lines 107–110: normalize, replace the bad characters by
underscores, truncate to 140 characters. -/
def sanitize_title (nfkc : List Char → List Char) (title : String) : String :=
  String.mk (sanitizeChars nfkc title.data)

/-- Days/civil conversion (standard civil-from-days algorithm) used to model
`strftime`; returns (year, month, day) of the UTC day containing the epoch
second. -/
def civil_of_epoch (t : Int) : Int × Int × Int :=
  let days := Int.fdiv t 86400
  let z := days + 719468
  let era := Int.fdiv z 146097
  let doe := z - era * 146097
  let yoe := Int.fdiv (doe - Int.fdiv doe 1460 + Int.fdiv doe 36524 -
    Int.fdiv doe 146096) 365
  let y := yoe + era * 400
  let doy := doe - (365 * yoe + Int.fdiv yoe 4 - Int.fdiv yoe 100)
  let mp := Int.fdiv (5 * doy + 2) 153
  let d := doy - Int.fdiv (153 * mp + 2) 5 + 1
  let m := if mp < 10 then mp + 3 else mp - 9
  (if m ≤ 2 then y + 1 else y, m, d)

/-- Two-digit zero padding, as `strftime` does for `%m` and `%d`. -/
def pad2 (n : Int) : String :=
  if 0 ≤ n ∧ n < 10 then "0" ++ toString n else toString n

/-- Four-digit zero padding, as `strftime` does for `%Y`. -/
def pad4 (n : Int) : String :=
  if 0 ≤ n ∧ n < 10 then "000" ++ toString n
  else if 0 ≤ n ∧ n < 100 then "00" ++ toString n
  else if 0 ≤ n ∧ n < 1000 then "0" ++ toString n
  else toString n

/-- `date.strftime("%Y_%m")` (source line 100). -/
def strftime_Y_m (date : PyDatetime) : String :=
  let c := civil_of_epoch date.epoch
  pad4 c.1 ++ "_" ++ pad2 c.2.1

/-- `date.strftime("%Y_%m_%d")` (source line 126). -/
def strftime_Y_m_d (date : PyDatetime) : String :=
  let c := civil_of_epoch date.epoch
  pad4 c.1 ++ "_" ++ pad2 c.2.1 ++ "_" ++ pad2 c.2.2

/-- Source lines 99–103: the month directory under the base directory
(the `mkdir` side effect is dropped; the function's value is the path). -/
def create_directory (base_dir : String) (date : PyDatetime) : String :=
  base_dir ++ "/" ++ strftime_Y_m date

/-- Source lines 114–127: `{date:%Y_%m_%d}_{sanitized_title}.txt` inside the
directory. -/
def create_file_name (nfkc : List Char → List Char) (directory_path : String)
    (title : String) (date : PyDatetime) : String :=
  directory_path ++ "/" ++ strftime_Y_m_d date ++ "_" ++
    sanitize_title nfkc title ++ ".txt"

/-- Source lines 131–135: the content written to the transcript file — for
each message in order, the author then a newline, then the text then a
newline. -/
def write_messages_to_file : List NormMessage → String
  | [] => ""
  | message :: rest =>
    message.author ++ "\n" ++ message.text ++ "\n" ++ write_messages_to_file rest

/-- One row of the `conversations` table (source lines 152–157). -/
structure ConvRecord where
  conversation_id : String
  title : String
  create_time : PyDatetime
  update_time : PyDatetime
deriving DecidableEq

/-- One row of the `messages` table (source lines 162–168). -/
structure MsgRecord where
  conversation_id : String
  author : String
  text : String
  create_time : PyDatetime
  update_time : PyDatetime
deriving DecidableEq

/-- `conversation.get("update_time")` (source line 144): collapses an absent
key and a JSON `null` value to `none`. -/
def updatedVal (conversation : Conversation) : Option Int :=
  conversation.update_time.bind id

/-- Truthiness of `updated` as tested by `if not updated` (source line 145). -/
def truthyUpdate (conversation : Conversation) : Bool :=
  match updatedVal conversation with
  | none => false
  | some v => v != 0

/-- The conversation row appended at source lines 152–157 (for a truthy
`updated`, `updated_date` is `datetime.fromtimestamp(updated)`). -/
def conversation_record (conversation : Conversation) : ConvRecord :=
  { conversation_id := conversation.id.getD "Unknown"
    title := conversation.title.getD "Untitled"
    create_time := datetime_fromtimestamp (conversation.create_time.getD 0)
    update_time := datetime_fromtimestamp ((updatedVal conversation).getD 0) }

/-- The message row appended at source lines 162–168. -/
def message_record (conversation : Conversation) (message : NormMessage) :
    MsgRecord :=
  { conversation_id := conversation.id.getD "Unknown"
    author := message.author
    text := message.text
    create_time := message.create_time
    update_time := message.update_time }

/-- Source lines 139–173 (up to the DataFrame constructors, which only wrap
the two record lists): the loop appending one conversation row and the
conversation's normalized message rows for every conversation whose
`update_time` value is truthy. -/
def extract_conversations_to_df :
    List Conversation → List ConvRecord × List MsgRecord
  | [] => ([], [])
  | conversation :: rest =>
    let tl := extract_conversations_to_df rest
    if truthyUpdate conversation then
      (conversation_record conversation :: tl.1,
        (get_conversation_messages conversation).map
          (message_record conversation) ++ tl.2)
    else tl

/-- The per-conversation result entry consumed by `run_process`
(source lines 253–254: `info['file']`, `info['directory']`). -/
structure DirFileInfo where
  directory : String
  file : String
deriving DecidableEq

/-- Modelled from the spec: `save_conversation_files` is called by
`process_conversations` (source line 235) and consumed by `run_process`, but
its definition is missing from `src/`.  Per spec §4.4 and §6 it places, for
each conversation row, a transcript file named
`{date:%Y_%m_%d}_{sanitized_title}.txt` into the month directory
`<output_dir>/<%Y_%m>` keyed by the conversation's creation date, and
returns the directory and file used for each conversation. -/
def save_conversation_files (nfkc : List Char → List Char)
    (conversations_df : List ConvRecord) (_messages_df : List MsgRecord)
    (output_dir : String) : List DirFileInfo :=
  conversations_df.map fun row =>
    let directory_path := create_directory output_dir row.create_time
    { directory := directory_path
      file := create_file_name nfkc directory_path row.title row.create_time }

/-- Modelled from the spec: the file-system writes performed for an archive —
per spec §4.4 the Transcript Writer receives each conversation's title,
creation date and ordered normalized message sequence and writes
`write_messages_to_file` of that sequence to the computed path. -/
def transcript_writes (nfkc : List Char → List Char)
    (conversations_data : List Conversation) (output_dir : String) :
    List (String × String) :=
  (conversations_data.filter fun c => truthyUpdate c).map fun c =>
    let date := datetime_fromtimestamp (c.create_time.getD 0)
    (create_file_name nfkc (create_directory output_dir date)
        (c.title.getD "Untitled") date,
      write_messages_to_file (get_conversation_messages c))

/-- Source lines 206–243.  The argument `loaded` is the result of
`load_json` (source lines 11–18), which catches I/O and JSON errors, prints
them and returns `None`; `none` here therefore models a failed load.  The
`if not conversations_data` test also returns `[]` for an empty archive.
The database write (`save_to_database`) only persists the two record lists
returned by `extract_conversations_to_df` and does not affect the result
value. -/
def process_conversations (nfkc : List Char → List Char)
    (loaded : Option (List Conversation)) (output_dir : String) :
    List DirFileInfo :=
  match loaded with
  | none => []
  | some conversations_data =>
    if conversations_data.isEmpty then []
    else
      let dfs := extract_conversations_to_df conversations_data
      save_conversation_files nfkc dfs.1 dfs.2 output_dir

/-- Split a character list at each newline; the result always has one more
entry than the number of newlines (a trailing newline yields a final empty
entry). -/
def splitLines : List Char → List (List Char)
  | [] => [[]]
  | c :: cs =>
    if c = '\n' then [] :: splitLines cs
    else
      match splitLines cs with
      | [] => [[c]]
      | l :: ls => (c :: l) :: ls

/-- The lines of a written text file, Python `readlines`-style: the empty
tail after a trailing newline is not a line. -/
def file_lines (s : String) : List (List Char) :=
  (splitLines s.data).dropLast

/-- The line sequence the spec describes for a transcript: author line then
text line for each message in order. -/
def transcript_lines : List NormMessage → List (List Char)
  | [] => []
  | message :: rest =>
    message.author.data :: message.text.data :: transcript_lines rest

/-- The inclusion predicate in the words of the spec (refinement comparison
for claim C1): parts non-empty, first part non-empty, and the *raw* author
role is not `"system"` or the metadata flag is set. -/
def spec_message_qualifies (message : Message) : Bool :=
  let parts := extract_message_parts message
  !parts.isEmpty && (parts.headD "" != "") &&
    (message.authorRole != "system" || message.is_user_system_message)

/-- A system-role text message without the `is_user_system_message` flag. -/
def sys_message : Message :=
  { authorRole := "system", content := some ⟨some "text", ["hello"]⟩,
    is_user_system_message := false, create_time := none, update_time := none }

/-- A one-node conversation whose only message is `sys_message`. -/
def sys_conversation : Conversation :=
  { id := none, title := none, create_time := none, update_time := none,
    current_node := some "A",
    mapping := [("A", { message := some sys_message, parent := none })] }

/-- A user message with text `"hi"`. -/
def user_message : Message :=
  { authorRole := "user", content := some ⟨some "text", ["hi"]⟩,
    is_user_system_message := false, create_time := none, update_time := none }

/-- An assistant message with text `"hello"`. -/
def asst_message : Message :=
  { authorRole := "assistant", content := some ⟨some "text", ["hello"]⟩,
    is_user_system_message := false, create_time := none, update_time := none }

/-- The spec §8 example conversation: user `"hi"` at the root `A`, assistant
`"hello"` at the current node `B`. -/
def demo_conversation : Conversation :=
  { id := some "conv1", title := some "Demo", create_time := some 0,
    update_time := some (some 5), current_node := some "B",
    mapping := [("A", { message := some user_message, parent := none }),
                ("B", { message := some asst_message, parent := some "A" })] }

/-- A conversation whose single node is its own parent: the parent chain
cycles forever. -/
def cyclic_conversation : Conversation :=
  { id := none, title := none, create_time := none, update_time := none,
    current_node := some "a",
    mapping := [("a", { message := none, parent := some "a" })] }

lemma stepO_of_falsy (mapping : List (String × Node)) (o : Option String)
    (h : truthyO o = false) : stepO mapping o = none := by
  cases o with
  | none => rfl
  | some s =>
    have hs : s = "" := by simpa [truthyO] using h
    simp [stepO, hs]

lemma chainO_succ (c : Conversation) (n : Nat) :
    chainO c (n + 1) = stepO c.mapping (chainO c n) :=
  Function.iterate_succ_apply' _ _ _

lemma chainO_falsy_mono (c : Conversation) (m k : Nat) (hmk : m ≤ k)
    (h : truthyO (chainO c m) = false) : truthyO (chainO c k) = false := by
  obtain ⟨j, rfl⟩ := Nat.le.dest hmk
  clear hmk
  induction j with
  | zero => exact h
  | succ j ih =>
    rw [show m + (j + 1) = (m + j) + 1 by omega, chainO_succ,
      stepO_of_falsy _ _ ih]
    rfl

lemma truthyO_iff (o : Option String) :
    truthyO o = true ↔ ∃ s, o = some s ∧ s ≠ "" := by
  cases o with
  | none => simp [truthyO]
  | some s => simp [truthyO]

lemma mem_keys_of_lookup {α β : Type} [BEq α] [LawfulBEq α] {a : α} {b : β} :
    ∀ {l : List (α × β)}, List.lookup a l = some b → a ∈ l.map Prod.fst := by
  intro l
  induction l with
  | nil => intro h; simp [List.lookup] at h
  | cons p t ih =>
    intro h
    by_cases he : a == p.1
    · simp [eq_of_beq he]
    · have he' : (a == p.1) = false := by simpa using he
      simp only [List.lookup, he'] at h
      simp [ih h]

/-- Pigeonhole: on an acyclic parent chain the pointer becomes falsy within
`mapping.length + 1` iterations, because every position whose successor is
truthy holds a distinct key of the mapping. -/
lemma terminates_within (c : Conversation) (hA : AcyclicChain c) :
    ∃ n, n ≤ c.mapping.length + 1 ∧ truthyO (chainO c n) = false := by
  by_contra hcon
  push_neg at hcon
  have htru : ∀ n, n ≤ c.mapping.length + 1 → truthyO (chainO c n) = true := by
    intro n hn
    have h := hcon n hn
    revert h
    cases truthyO (chainO c n) <;> simp
  have hkey : ∀ i, i ≤ c.mapping.length →
      ∃ s, chainO c i = some s ∧ s ∈ c.mapping.map Prod.fst := by
    intro i hi
    obtain ⟨s, hs, hne⟩ := (truthyO_iff _).mp (htru i (Nat.le_succ_of_le hi))
    refine ⟨s, hs, ?_⟩
    have hnext : truthyO (chainO c (i + 1)) = true :=
      htru (i + 1) (Nat.succ_le_succ hi)
    rw [chainO_succ, hs] at hnext
    rw [stepO, if_neg hne] at hnext
    rcases hl : List.lookup s c.mapping with _ | nd
    · rw [nodeAt, hl] at hnext
      simp [truthyO] at hnext
    · exact mem_keys_of_lookup hl
  have hcard :
      (Finset.univ : Finset (Fin (c.mapping.length + 1))).card ≤
        (c.mapping.map Prod.fst).toFinset.card := by
    apply Finset.card_le_card_of_injOn
      (fun i : Fin (c.mapping.length + 1) => (chainO c i.val).getD "")
    · intro i _
      obtain ⟨s, hs, hmem⟩ := hkey i (Nat.lt_succ_iff.mp i.isLt)
      rw [hs]
      simpa using hmem
    · intro i _ j _ hij
      simp only at hij
      obtain ⟨si, hsi, _⟩ := hkey i (Nat.lt_succ_iff.mp i.isLt)
      obtain ⟨sj, hsj, _⟩ := hkey j (Nat.lt_succ_iff.mp j.isLt)
      rw [hsi, hsj] at hij
      simp only [Option.getD_some] at hij
      have hchain : chainO c i.val = chainO c j.val := by
        rw [hsi, hsj, hij]
      exact Fin.ext (hA i.val j.val
        (htru i.val (Nat.le_of_lt i.isLt))
        (htru j.val (Nat.le_of_lt j.isLt)) hchain)
  have hlen : (c.mapping.map Prod.fst).toFinset.card ≤ c.mapping.length := by
    calc (c.mapping.map Prod.fst).toFinset.card
        ≤ (c.mapping.map Prod.fst).length := List.toFinset_card_le _
      _ = c.mapping.length := List.length_map _ _
  rw [Finset.card_univ, Fintype.card_fin] at hcard
  omega

lemma walk_eq_filterMap (mapping : List (String × Node)) :
    ∀ (fuel : Nat) (cn : Option String),
      walk mapping fuel cn =
        (chainIds mapping fuel cn).filterMap (record_at mapping) := by
  intro fuel
  induction fuel with
  | zero => intro cn; rfl
  | succ n ih =>
    intro cn
    cases cn with
    | none => rfl
    | some s =>
      by_cases hs : s = ""
      · simp [walk, chainIds, hs]
      · rw [walk, chainIds, if_neg hs, if_neg hs, List.filterMap_cons]
        rcases hm : (nodeAt mapping s).message with _ | message
        · simp [record_at, hm, ih]
        · by_cases hq : message_qualifies message
          · simp [record_at, hm, hq, ih]
          · simp [record_at, hm, hq, ih]

lemma chainIds_get (mapping : List (String × Node)) :
    ∀ (fuel k : Nat) (cn : Option String), k < fuel →
      truthyO ((stepO mapping)^[k] cn) = true →
      (chainIds mapping fuel cn).get? k = (stepO mapping)^[k] cn := by
  intro fuel
  induction fuel with
  | zero => intro k cn hk; omega
  | succ n ih =>
    intro k cn hk htr
    cases cn with
    | none =>
      rw [Function.iterate_fixed rfl] at htr
      simp [truthyO] at htr
    | some s =>
      by_cases hs : s = ""
      · subst hs
        cases k with
        | zero => simp [truthyO] at htr
        | succ k =>
          rw [Function.iterate_succ_apply,
            show stepO mapping (some "") = none from rfl,
            Function.iterate_fixed rfl] at htr
          simp [truthyO] at htr
      · cases k with
        | zero =>
          simp [chainIds, hs]
        | succ k =>
          rw [chainIds, if_neg hs]
          rw [Function.iterate_succ_apply,
            show stepO mapping (some s) =
              (nodeAt mapping s).parent from by rw [stepO, if_neg hs]] at htr ⊢
          exact ih k _ (Nat.lt_of_succ_lt_succ hk) htr

lemma truthy_of_lt_length_chainIds (mapping : List (String × Node)) :
    ∀ (fuel k : Nat) (cn : Option String),
      k < (chainIds mapping fuel cn).length →
      truthyO ((stepO mapping)^[k] cn) = true := by
  intro fuel
  induction fuel with
  | zero => intro k cn hk; simp [chainIds] at hk
  | succ n ih =>
    intro k cn hk
    cases cn with
    | none => simp [chainIds] at hk
    | some s =>
      by_cases hs : s = ""
      · rw [chainIds, if_pos hs] at hk
        simp at hk
      · rw [chainIds, if_neg hs] at hk
        cases k with
        | zero =>
          simp [truthyO, bne_iff_ne, hs]
        | succ k =>
          rw [List.length_cons] at hk
          rw [Function.iterate_succ_apply,
            show stepO mapping (some s) =
              (nodeAt mapping s).parent from by rw [stepO, if_neg hs]]
          exact ih k _ (Nat.lt_of_succ_lt_succ hk)

lemma demo_chain (n : Nat) : chainO demo_conversation n =
    if n = 0 then some "B" else if n = 1 then some "A" else none := by
  match n with
  | 0 => rfl
  | 1 => rfl
  | k + 2 =>
    have h1 : (k : Nat) + 2 ≠ 0 := by omega
    have h2 : (k : Nat) + 2 ≠ 1 := by omega
    rw [if_neg h1, if_neg h2]
    show (stepO demo_conversation.mapping)^[k + 2]
      demo_conversation.current_node = none
    rw [Function.iterate_add_apply]
    rw [show (stepO demo_conversation.mapping)^[2]
      demo_conversation.current_node = none from rfl]
    exact Function.iterate_fixed rfl k

lemma demo_acyclic : AcyclicChain demo_conversation := by
  intro i j hi hj hij
  have hbound : ∀ n, truthyO (chainO demo_conversation n) = true → n < 2 := by
    intro n hn
    by_contra hge
    push_neg at hge
    rw [demo_chain n, if_neg (by omega), if_neg (by omega)] at hn
    simp [truthyO] at hn
  have hi2 := hbound i hi
  have hj2 := hbound j hj
  interval_cases i <;> interval_cases j <;>
    simp_all [demo_chain]

lemma cyclic_chain (n : Nat) :
    chainO cyclic_conversation n = some "a" :=
  Function.iterate_fixed rfl n

/-- Claim C1 (code bug in the source): the inclusion filter at source lines
79–81 compares the already-mapped display name against `"system"`, and no
raw role maps to the display name `"system"`, so the role clause of the
filter is vacuous and a system-role message without the
`is_user_system_message` flag is included — contradicting the filter the
spec describes, which tests the raw role.  Concretely,
`sys_conversation`'s unflagged system message is emitted (displayed as
`"Custom user info"`), while the spec-side predicate
`spec_message_qualifies` rejects it. -/
theorem system_message_without_flag_is_included :
    (∀ message : Message, get_author_name message ≠ "system") ∧
    message_qualifies sys_message = true ∧
    spec_message_qualifies sys_message = false ∧
    get_conversation_messages sys_conversation =
      [⟨"Custom user info", "hello", ⟨0⟩, ⟨0⟩⟩] := by
  refine ⟨?_, by decide, by decide, by decide⟩
  intro message
  unfold get_author_name author_name_table
  by_cases h1 : message.authorRole = "assistant"
  · simp [List.lookup, h1]
  · by_cases h2 : message.authorRole = "system"
    · simp [List.lookup, h1, h2]
    · have hb1 : (message.authorRole == "assistant") = false := by
        simpa using h1
      have hb2 : (message.authorRole == "system") = false := by
        simpa using h2
      simp [List.lookup, hb1, hb2, h2]

/-- Claim C3: for an acyclic parent chain, `get_conversation_messages`
returns exactly the qualifying messages found on the parent-link path from
`current_node`, reversed into root-first order.  The second conjunct states
that `visited_path` is precisely the truthy prefix of the pointer chain: it
contains every position the loop reaches and nothing else — so a node with
no payload contributes no message while the walk continues past it, and an
id absent from the mapping makes the next pointer falsy, ending the walk;
the third conjunct is the immediate empty result for a missing or empty
`current_node`. -/
theorem conversation_messages_follow_active_path (c : Conversation)
    (hA : AcyclicChain c) :
    get_conversation_messages c =
      ((visited_path c).filterMap (record_at c.mapping)).reverse ∧
    (∀ k, (visited_path c).get? k =
      if truthyO (chainO c k) = true then chainO c k else none) ∧
    (truthyO c.current_node = false → get_conversation_messages c = []) := by
  refine ⟨?_, ?_, ?_⟩
  · unfold get_conversation_messages visited_path
    rw [walk_eq_filterMap]
  · intro k
    by_cases htk : truthyO (chainO c k) = true
    · rw [if_pos htk]
      obtain ⟨n, hn, hfal⟩ := terminates_within c hA
      have hkn : k < n := by
        by_contra hge
        push_neg at hge
        rw [chainO_falsy_mono c n k hge hfal] at htk
        cases htk
      exact chainIds_get c.mapping _ k _ (by omega) htk
    · rw [if_neg htk]
      apply List.get?_eq_none.mpr
      by_contra hlen
      push_neg at hlen
      exact htk (truthy_of_lt_length_chainIds c.mapping _ k _ hlen)
  · intro hf
    cases hcn : c.current_node with
    | none => simp [get_conversation_messages, hcn, walk]
    | some s =>
      have hs : s = "" := by
        rw [hcn] at hf
        simpa [truthyO] using hf
      simp [get_conversation_messages, hcn, walk, hs]

/-- Witness for C3 at the spec §8 example conversation. -/
theorem conversation_messages_follow_active_path_witness :
    AcyclicChain demo_conversation ∧
    (get_conversation_messages demo_conversation =
      ((visited_path demo_conversation).filterMap
        (record_at demo_conversation.mapping)).reverse ∧
    (∀ k, (visited_path demo_conversation).get? k =
      if truthyO (chainO demo_conversation k) = true
      then chainO demo_conversation k else none) ∧
    (truthyO demo_conversation.current_node = false →
      get_conversation_messages demo_conversation = [])) :=
  ⟨demo_acyclic,
    conversation_messages_follow_active_path demo_conversation demo_acyclic⟩

/-- Claim C9: if the parent chain from `current_node` is acyclic then the
`while current_node:` loop of source line 68 terminates; the precondition is
genuine, because for `cyclic_conversation` — a node that is its own parent —
the pointer stays truthy forever and the loop never terminates. -/
theorem walk_loop_terminates_iff_no_cycle :
    (∀ c : Conversation, AcyclicChain c → LoopTerminates c) ∧
    ¬ LoopTerminates cyclic_conversation := by
  constructor
  · intro c hA
    obtain ⟨n, _, hf⟩ := terminates_within c hA
    exact ⟨n, hf⟩
  · rintro ⟨n, hf⟩
    rw [cyclic_chain n] at hf
    simp [truthyO] at hf

/-- Witness for C9: the example conversation's chain is acyclic and its loop
terminates. -/
theorem walk_loop_terminates_iff_no_cycle_witness :
    AcyclicChain demo_conversation ∧ LoopTerminates demo_conversation :=
  ⟨demo_acyclic,
    walk_loop_terminates_iff_no_cycle.1 demo_conversation demo_acyclic⟩

/-- A system-role message carrying the `is_user_system_message` flag. -/
def flagged_sys_message : Message :=
  { authorRole := "system", content := some ⟨some "text", ["note"]⟩,
    is_user_system_message := true, create_time := none, update_time := none }

/-- Claim C7: `get_author_name` maps role `"assistant"` to `"ChatGPT"` and
`"system"` to `"Custom user info"`, and returns every other role unchanged;
the mapping is computed independently of the inclusion filter, so a system
message that qualifies (in particular via the flag) is still recorded with
display author `"Custom user info"`. -/
theorem author_name_mapping (message : Message) :
    get_author_name message =
      (if message.authorRole = "assistant" then "ChatGPT"
       else if message.authorRole = "system" then "Custom user info"
       else message.authorRole) ∧
    (message.authorRole = "system" → message.is_user_system_message = true →
      message_qualifies message = true →
      (normalize_message message).author = "Custom user info") := by
  have hmap : get_author_name message =
      (if message.authorRole = "assistant" then "ChatGPT"
       else if message.authorRole = "system" then "Custom user info"
       else message.authorRole) := by
    unfold get_author_name author_name_table
    by_cases h1 : message.authorRole = "assistant"
    · simp [List.lookup, h1]
    · by_cases h2 : message.authorRole = "system"
      · simp [List.lookup, h1, h2]
      · have hb1 : (message.authorRole == "assistant") = false := by
          simpa using h1
        have hb2 : (message.authorRole == "system") = false := by
          simpa using h2
        simp [List.lookup, hb1, hb2, h1, h2]
  refine ⟨hmap, ?_⟩
  intro hsys _ _
  show get_author_name message = "Custom user info"
  rw [hmap, if_neg (by rw [hsys]; decide), if_pos hsys]

/-- Witness for C7: the flagged system message qualifies and is displayed as
`"Custom user info"`. -/
theorem author_name_mapping_witness :
    (normalize_message flagged_sys_message).author = "Custom user info" :=
  (author_name_mapping flagged_sys_message).2 rfl rfl (by decide)

lemma splitLines_append (a : List Char) (rest : List Char)
    (ha : ∀ c ∈ a, c ≠ '\n') :
    splitLines (a ++ '\n' :: rest) = a :: splitLines rest := by
  induction a with
  | nil => simp [splitLines]
  | cons c cs ih =>
    have hc : c ≠ '\n' := ha c (by simp)
    rw [List.cons_append, splitLines, if_neg hc,
      ih (fun x hx => ha x (by simp [hx]))]

lemma transcript_lines_length (messages : List NormMessage) :
    (transcript_lines messages).length = 2 * messages.length := by
  induction messages with
  | nil => rfl
  | cons m rest ih =>
    rw [transcript_lines, List.length_cons, List.length_cons, ih,
      List.length_cons]
    omega

lemma splitLines_write (messages : List NormMessage)
    (h : ∀ m ∈ messages, (∀ c ∈ m.author.data, c ≠ '\n') ∧
      (∀ c ∈ m.text.data, c ≠ '\n')) :
    splitLines (write_messages_to_file messages).data =
      transcript_lines messages ++ [[]] := by
  induction messages with
  | nil => rfl
  | cons m rest ih =>
    rw [write_messages_to_file, String.data_append, String.data_append,
      String.data_append, String.data_append,
      show ("\n" : String).data = ['\n'] from rfl]
    simp only [List.append_assoc, List.singleton_append, List.cons_append,
      List.nil_append]
    rw [splitLines_append _ _ (h m (by simp)).1,
      splitLines_append _ _ (h m (by simp)).2,
      ih (fun x hx => h x (by simp [hx]))]
    rfl

/-- Claim C4 (amended): the transcript is the author display name then a
newline then the message text then a newline for each message in
chronological order with no separator lines; provided no author name or
message text itself contains a newline character, the file therefore
contains exactly 2N lines.  (A text containing a newline produces extra
lines — see the counterexample.) -/
theorem transcript_has_two_lines_per_message (messages : List NormMessage)
    (h : ∀ m ∈ messages, (∀ c ∈ m.author.data, c ≠ '\n') ∧
      (∀ c ∈ m.text.data, c ≠ '\n')) :
    file_lines (write_messages_to_file messages) = transcript_lines messages ∧
    (file_lines (write_messages_to_file messages)).length =
      2 * messages.length := by
  have hsplit := splitLines_write messages h
  refine ⟨?_, ?_⟩
  · rw [file_lines, hsplit, List.dropLast_concat]
  · rw [file_lines, hsplit, List.dropLast_concat, transcript_lines_length]

/-- Counterexample to claim C4 as stated: one message whose text contains a
newline yields a three-line file, not 2·1 lines. -/
theorem transcript_two_lines_counterexample :
    (file_lines
        (write_messages_to_file [⟨"user", "a\nb", ⟨0⟩, ⟨0⟩⟩])).length ≠
      2 * [(⟨"user", "a\nb", ⟨0⟩, ⟨0⟩⟩ : NormMessage)].length := by
  decide

lemma replChar_not_bad (c : Char) : isBadChar (replChar c) = false := by
  rw [replChar]
  by_cases h : isBadChar c
  · rw [if_pos h]
    decide
  · rw [if_neg h]
    simpa using h

lemma replChar_idem (c : Char) : replChar (replChar c) = replChar c := by
  have h := replChar_not_bad c
  rw [show replChar (replChar c) =
    (if isBadChar (replChar c) then '_' else replChar c) from rfl, h]
  rfl

lemma map_replChar_idem (l : List Char) :
    (l.map replChar).map replChar = l.map replChar := by
  induction l with
  | nil => rfl
  | cons c cs ih => simp [replChar_idem, ih]

/-- Claim C5: `sanitize_title` is idempotent and its output never exceeds
140 characters.  The external normalizer `nfkc` — the standard-library call
`unicodedata.normalize("NFKC", ·)`, which is not code of this repository —
is abstracted as a parameter; idempotence uses its documented closure laws
(idempotence, and normalized strings stay normalized under taking a prefix
and under replacing characters by `'_'`, all true of Unicode NFKC), while
the 140-character bound holds for every normalizer. -/
theorem sanitize_title_idempotent_and_bounded
    (nfkc : List Char → List Char)
    (hidem : ∀ s, nfkc (nfkc s) = nfkc s)
    (hpre : ∀ s n, nfkc s = s → nfkc (s.take n) = s.take n)
    (hrepl : ∀ s, nfkc s = s → nfkc (s.map replChar) = s.map replChar) :
    (∀ title : String,
      sanitize_title nfkc (sanitize_title nfkc title) =
        sanitize_title nfkc title) ∧
    (∀ title : String, (sanitize_title nfkc title).length ≤ 140) := by
  constructor
  · intro title
    show String.mk (sanitizeChars nfkc (sanitizeChars nfkc title.data)) =
      String.mk (sanitizeChars nfkc title.data)
    rw [sanitizeChars, sanitizeChars,
      hpre _ 140 (hrepl _ (hidem title.data))]
    rw [List.map_take, List.map_map, List.take_take, Nat.min_self]
    rw [show (Function.comp replChar replChar) = replChar from ?_]
    · funext c
      exact replChar_idem c
  · intro title
    show (String.mk (sanitizeChars nfkc title.data)).length ≤ 140
    rw [show (String.mk (sanitizeChars nfkc title.data)).length =
      (sanitizeChars nfkc title.data).length from rfl, sanitizeChars]
    exact List.length_take_le _ _

/-- The identity normalizer, used to witness the abstract-normalizer
hypotheses (it satisfies all three closure laws trivially). -/
def trivial_nfkc : List Char → List Char := fun l => l

/-- Witness for C5 with the identity normalizer at a concrete title. -/
theorem sanitize_title_idempotent_and_bounded_witness :
    (∀ s, trivial_nfkc (trivial_nfkc s) = trivial_nfkc s) ∧
    (∀ s n, trivial_nfkc s = s → trivial_nfkc (s.take n) = s.take n) ∧
    (∀ s, trivial_nfkc s = s →
      trivial_nfkc (s.map replChar) = s.map replChar) ∧
    sanitize_title trivial_nfkc (sanitize_title trivial_nfkc "a b<c") =
      sanitize_title trivial_nfkc "a b<c" ∧
    (sanitize_title trivial_nfkc "a b<c").length ≤ 140 :=
  ⟨fun _ => rfl, fun _ _ _ => rfl, fun _ _ => rfl,
    (sanitize_title_idempotent_and_bounded trivial_nfkc (fun _ => rfl)
      (fun _ _ _ => rfl) (fun _ _ => rfl)).1 "a b<c",
    (sanitize_title_idempotent_and_bounded trivial_nfkc (fun _ => rfl)
      (fun _ _ _ => rfl) (fun _ _ => rfl)).2 "a b<c"⟩

/-- Witness for the amended C4 at a concrete newline-free transcript. -/
theorem transcript_has_two_lines_per_message_witness :
    (∀ m ∈ [(⟨"user", "hi", ⟨0⟩, ⟨0⟩⟩ : NormMessage),
        ⟨"ChatGPT", "hello", ⟨0⟩, ⟨0⟩⟩],
      (∀ c ∈ m.author.data, c ≠ '\n') ∧ (∀ c ∈ m.text.data, c ≠ '\n')) ∧
    (file_lines (write_messages_to_file
        [⟨"user", "hi", ⟨0⟩, ⟨0⟩⟩, ⟨"ChatGPT", "hello", ⟨0⟩, ⟨0⟩⟩]) =
      transcript_lines
        [⟨"user", "hi", ⟨0⟩, ⟨0⟩⟩, ⟨"ChatGPT", "hello", ⟨0⟩, ⟨0⟩⟩] ∧
    (file_lines (write_messages_to_file
        [⟨"user", "hi", ⟨0⟩, ⟨0⟩⟩, ⟨"ChatGPT", "hello", ⟨0⟩, ⟨0⟩⟩])).length =
      2 * [(⟨"user", "hi", ⟨0⟩, ⟨0⟩⟩ : NormMessage),
        ⟨"ChatGPT", "hello", ⟨0⟩, ⟨0⟩⟩].length) :=
  ⟨by decide, transcript_has_two_lines_per_message _ (by decide)⟩

lemma extract_cons_falsy (c : Conversation) (rest : List Conversation)
    (h : truthyUpdate c = false) :
    extract_conversations_to_df (c :: rest) =
      extract_conversations_to_df rest := by
  simp [extract_conversations_to_df, h]

lemma extract_append_congr (pre : List Conversation)
    {l1 l2 : List Conversation}
    (h : extract_conversations_to_df l1 = extract_conversations_to_df l2) :
    extract_conversations_to_df (pre ++ l1) =
      extract_conversations_to_df (pre ++ l2) := by
  induction pre with
  | nil => simpa using h
  | cons p t ih =>
    rw [List.cons_append, List.cons_append]
    simp only [extract_conversations_to_df]
    rw [ih]

/-- The `if not conversations_data` guard only matters for the early return:
as a value, `process_conversations` on a loaded archive always equals the
modelled `save_conversation_files` of the extracted record sets. -/
lemma process_some_eq (nfkc : List Char → List Char)
    (data : List Conversation) (out : String) :
    process_conversations nfkc (some data) out =
      save_conversation_files nfkc (extract_conversations_to_df data).1
        (extract_conversations_to_df data).2 out := by
  cases data with
  | nil => rfl
  | cons c rest => rfl

/-- Claim C6: a conversation lacking a (truthy) update timestamp contributes
no conversation record, no message records, and no transcript file: removing
it from the archive changes neither the extracted record sets, nor the
result of `process_conversations`, nor the modelled transcript writes; the
embedding is total, so nothing is raised. -/
theorem conversation_without_update_time_skipped
    (pre post : List Conversation) (c : Conversation)
    (h : truthyUpdate c = false) :
    extract_conversations_to_df (pre ++ c :: post) =
      extract_conversations_to_df (pre ++ post) ∧
    (∀ (nfkc : List Char → List Char) (out : String),
      process_conversations nfkc (some (pre ++ c :: post)) out =
        process_conversations nfkc (some (pre ++ post)) out) ∧
    (∀ (nfkc : List Char → List Char) (out : String),
      transcript_writes nfkc (pre ++ c :: post) out =
        transcript_writes nfkc (pre ++ post) out) := by
  have hext : extract_conversations_to_df (pre ++ c :: post) =
      extract_conversations_to_df (pre ++ post) :=
    extract_append_congr pre (extract_cons_falsy c post h)
  refine ⟨hext, ?_, ?_⟩
  · intro nfkc out
    rw [process_some_eq, process_some_eq, hext]
  · intro nfkc out
    rw [transcript_writes, transcript_writes, List.filter_append,
      List.filter_append, List.filter_cons_of_neg]
    simp [h]

/-- Witness for C6: `sys_conversation` has no update timestamp and deleting
it from a two-conversation archive changes nothing. -/
theorem conversation_without_update_time_skipped_witness :
    truthyUpdate sys_conversation = false ∧
    extract_conversations_to_df
        ([demo_conversation] ++ sys_conversation :: []) =
      extract_conversations_to_df ([demo_conversation] ++ []) :=
  ⟨by decide,
    (conversation_without_update_time_skipped [demo_conversation] []
      sys_conversation (by decide)).1⟩

/-- Claim C10: a conversation whose `update_time` key is present but falsy
(JSON `null` or `0`) is excluded from both record sets exactly like a
conversation missing the key entirely — the skip test `if not updated`
checks truthiness of the value, not presence of the key. -/
theorem falsy_update_time_like_missing (c : Conversation)
    (h : c.update_time = some none ∨ c.update_time = some (some 0)) :
    ∀ pre post,
      extract_conversations_to_df (pre ++ c :: post) =
        extract_conversations_to_df
          (pre ++ { c with update_time := none } :: post) ∧
      extract_conversations_to_df (pre ++ c :: post) =
        extract_conversations_to_df (pre ++ post) := by
  have hf : truthyUpdate c = false := by
    rcases h with h | h <;> simp [truthyUpdate, updatedVal, h]
  have hf2 : truthyUpdate { c with update_time := none } = false := by
    simp [truthyUpdate, updatedVal]
  intro pre post
  constructor
  · exact extract_append_congr pre
      (by rw [extract_cons_falsy _ _ hf, extract_cons_falsy _ _ hf2])
  · exact extract_append_congr pre (extract_cons_falsy _ _ hf)

/-- The demo conversation with its `update_time` key present but zero. -/
def zero_update_conversation : Conversation :=
  { demo_conversation with update_time := some (some 0) }

/-- Witness for C10 at a conversation with `update_time` present and `0`. -/
theorem falsy_update_time_like_missing_witness :
    (zero_update_conversation.update_time = some none ∨
      zero_update_conversation.update_time = some (some 0)) ∧
    extract_conversations_to_df ([] ++ zero_update_conversation :: []) =
      extract_conversations_to_df
        ([] ++ { zero_update_conversation with update_time := none } :: []) ∧
    extract_conversations_to_df ([] ++ zero_update_conversation :: []) =
      extract_conversations_to_df ([] ++ []) :=
  ⟨Or.inr rfl,
    falsy_update_time_like_missing zero_update_conversation (Or.inr rfl)
      [] []⟩

/-- Claim C8: when the load fails, `load_json` (source lines 11–18) catches
the I/O or JSON error, prints it and returns `None`, and
`process_conversations` then returns the empty list; the embedding is a total function, so the
failure is never propagated as an exception to the caller. -/
theorem load_failure_yields_empty_result (nfkc : List Char → List Char)
    (out : String) : process_conversations nfkc none out = [] := rfl

lemma extract_fst_eq (l : List Conversation) :
    (extract_conversations_to_df l).1 =
      (l.filter fun c => truthyUpdate c).map conversation_record := by
  induction l with
  | nil => rfl
  | cons c rest ih =>
    by_cases h : truthyUpdate c
    · simp [extract_conversations_to_df, List.filter_cons, h, ih]
    · simp [extract_conversations_to_df, List.filter_cons, h, ih]

/-- Claim C2 (with `save_conversation_files` modelled from the spec, since
it is called at source line 235 but defined nowhere in the repository): for
a successfully loaded archive containing at least one conversation with a
truthy update timestamp, `process_conversations` returns one entry per such
conversation — the month directory keyed by the conversation's creation
date and the dated, sanitized-title file inside it; the modelled Transcript
Writer writes exactly one transcript, at exactly those file paths; the
result is non-empty; and only a top-level failure (modelled by `none`)
yields the empty list. -/
theorem process_conversations_writes_per_conversation
    (nfkc : List Char → List Char) (data : List Conversation) (out : String)
    (hne : ∃ c ∈ data, truthyUpdate c = true) :
    process_conversations nfkc (some data) out =
      (data.filter fun c => truthyUpdate c).map (fun c =>
        let date := datetime_fromtimestamp (c.create_time.getD 0)
        let dir := create_directory out date
        { directory := dir
          file := create_file_name nfkc dir (c.title.getD "Untitled") date }) ∧
    process_conversations nfkc (some data) out ≠ [] ∧
    (transcript_writes nfkc data out).map Prod.fst =
      (process_conversations nfkc (some data) out).map DirFileInfo.file ∧
    (transcript_writes nfkc data out).length =
      (process_conversations nfkc (some data) out).length ∧
    process_conversations nfkc none out = [] := by
  have hmain : process_conversations nfkc (some data) out =
      (data.filter fun c => truthyUpdate c).map (fun c =>
        let date := datetime_fromtimestamp (c.create_time.getD 0)
        let dir := create_directory out date
        { directory := dir
          file := create_file_name nfkc dir (c.title.getD "Untitled")
            date }) := by
    rw [process_some_eq, save_conversation_files, extract_fst_eq,
      List.map_map]
    rfl
  refine ⟨hmain, ?_, ?_, ?_, rfl⟩
  · rw [hmain]
    obtain ⟨c, hc, ht⟩ := hne
    exact List.ne_nil_of_mem
      (List.mem_map_of_mem _ (List.mem_filter.mpr ⟨hc, ht⟩))
  · rw [hmain, transcript_writes, List.map_map, List.map_map]
    rfl
  · rw [hmain, transcript_writes, List.length_map, List.length_map]

/-- Witness for C2 at a one-conversation archive. -/
theorem process_conversations_writes_per_conversation_witness :
    (∃ c ∈ [demo_conversation], truthyUpdate c = true) ∧
    process_conversations trivial_nfkc (some [demo_conversation]) "out" ≠
      [] :=
  ⟨by decide,
    (process_conversations_writes_per_conversation trivial_nfkc
      [demo_conversation] "out" (by decide)).2.1⟩
